import Mathlib

/-!
Verification of the DailyLesson pipeline (lesson_service.py, image_service.py,
content_renderer.py, orchestrator.py) against its natural-language specification.

Shallow embedding conventions:
* Python `str` values are modelled as `String` where no character-level reasoning
  is needed, and as `List Char` where it is (regex filters, URL quoting, JSON).
* Python exceptions are modelled with `Except String`; the error string is the
  exception message from the source.
* `datetime.now()` is modelled by passing the relevant observed components
  (`tm_yday`, ISO timestamp string, date string) as explicit parameters.
* Python's builtin `hash` on `str` is salted per process (PYTHONHASHSEED), so it
  is modelled as an explicit function parameter: one fixed function per process.
-/

namespace DailyLesson

/-- Date as observed by the selector: `datetime.now()` supplies a full date, of
which `select_daily_lesson` reads only `timetuple().tm_yday`.  The year is kept
so that distinct dates with equal ordinal day can be expressed. -/
structure PyDate where
  year : Int
  tm_yday : Nat
deriving Repr, DecidableEq

/-- Lesson record (the Python dict built in `SeleniumLessonFetcher`), with the
optional keys added by the enhancement step.  `none` models the key being
absent or set to Python `None`; no claim distinguishes the two. -/
structure Lesson where
  id : String
  subject : String
  title : String
  content : String
  source_url : String
  image_url : Option String := none
  image_generated_at : Option String := none
  image_error : Option String := none
deriving Repr, DecidableEq

/-- Embedding of `DayBasedLessonSelector.select_daily_lesson`
(lesson_service.py lines 105-112).  `raise ValueError(...)` becomes
`Except.error`; `day_of_year` is `today.tm_yday`; Python's
`(day_of_year - 1) % len(lessons)` agrees with Nat subtraction/mod because
`tm_yday ≥ 1`. -/
def select_daily_lesson (today : PyDate) (lessons : List Lesson) :
    Except String Lesson :=
  if h : lessons = [] then
    .error "No lessons available for selection"
  else
    let day_of_year := today.tm_yday
    let daily_lesson_idx := (day_of_year - 1) % lessons.length
    .ok (lessons.get ⟨daily_lesson_idx,
      Nat.mod_lt _ (List.length_pos.mpr h)⟩)

/-- Code-point ranges of the Unicode decimal digits (category Nd) that
Python's `\d` matches in `str` patterns, derived from CPython's regex
engine: `re.match(r'\d', chr(cp))` succeeds exactly on these code points. -/
def ndRanges : List (Nat × Nat) :=
  [(48, 57), (1632, 1641), (1776, 1785), (1984, 1993), (2406, 2415), (2534, 2543), (2662, 2671), (2790, 2799), (2918, 2927), (3046, 3055), (3174, 3183), (3302, 3311), (3430, 3439), (3558, 3567), (3664, 3673), (3792, 3801), (3872, 3881), (4160, 4169), (4240, 4249), (6112, 6121), (6160, 6169), (6470, 6479), (6608, 6617), (6784, 6793), (6800, 6809), (6992, 7001), (7088, 7097), (7232, 7241), (7248, 7257), (42528, 42537), (43216, 43225), (43264, 43273), (43472, 43481), (43504, 43513), (43600, 43609), (44016, 44025), (65296, 65305), (66720, 66729), (68912, 68921), (69734, 69743), (69872, 69881), (69942, 69951), (70096, 70105), (70384, 70393), (70736, 70745), (70864, 70873), (71248, 71257), (71360, 71369), (71472, 71481), (71904, 71913), (72016, 72025), (72784, 72793), (73040, 73049), (73120, 73129), (92768, 92777), (92864, 92873), (93008, 93017), (120782, 120831), (123200, 123209), (123632, 123641), (125264, 125273), (130032, 130041)]

/-- Python's `\d` applied to one character: any Unicode decimal digit. -/
def isUnicodeDigit (c : Char) : Bool :=
  ndRanges.any (fun r => decide (r.1 ≤ c.toNat) && decide (c.toNat ≤ r.2))

/-- Closing part of the `re.match(r'【\d+-\d+】', ·)` pattern after the `-`:
one or more Unicode digits, then `】`. -/
def numPairClose (r2 : List Char) : Bool :=
  match r2.dropWhile isUnicodeDigit with
  | [] => false
  | e :: _ => e == '】' && !(r2.takeWhile isUnicodeDigit).isEmpty

/-- Tail of the `re.match(r'【\d+-\d+】', ·)` pattern after the opening `【`:
one or more Unicode digits, `-`, one or more Unicode digits, `】`.  The
regex is greedy, but `-` and `】` are not digits, so the greedy digit runs
are exactly the maximal digit runs. -/
def numPairTail (r1 : List Char) : Bool :=
  match r1.dropWhile isUnicodeDigit with
  | [] => false
  | d :: r2 =>
      d == '-' && !(r1.takeWhile isUnicodeDigit).isEmpty && numPairClose r2

/-- Embedding of `bool(re.match(r'【\d+-\d+】', text))`. -/
def reMatch_numPair : List Char → Bool
  | [] => false
  | c :: r1 => c == '【' && numPairTail r1

/-- One attempted match of `【[^】]+】` whose `【` has just been consumed: at
least one non-`】` character, then a `】` (the first `】` closes the span). -/
def bracketInner : List Char → Bool
  | [] => false
  | c2 :: rest2 => c2 != '】' && rest2.any (fun d => d == '】')

/-- Embedding of `bool(re.search(r'【[^】]+】', text))`: `re.search` tries a
match at every position. -/
def reSearch_bracketSpan : List Char → Bool
  | [] => false
  | c :: rest => (c == '【' && bracketInner rest) || reSearch_bracketSpan rest

namespace SubjectFilter

/-- Embedding of `SubjectFilter.filter_nature` (lesson_service.py line 20). -/
def filter_nature (text : List Char) : Bool := reMatch_numPair text

/-- Embedding of `SubjectFilter.filter_chinese` (lesson_service.py line 25). -/
def filter_chinese (text : List Char) : Bool := reSearch_bracketSpan text

/-- Embedding of `SubjectFilter.filter_history` (lesson_service.py line 30). -/
def filter_history (text : List Char) : Bool := reMatch_numPair text

/-- Embedding of `SubjectFilter.filter_geography` (lesson_service.py line 35). -/
def filter_geography (text : List Char) : Bool := reMatch_numPair text

/-- Embedding of `SubjectFilter.filter_civics` (lesson_service.py line 40). -/
def filter_civics (text : List Char) : Bool := reMatch_numPair text

end SubjectFilter

/-- Python-level call of a filter on an optional string: `re.match`/`re.search`
raise `TypeError: expected string or bytes-like object` when handed `None`
(CPython `re` module semantics), so the predicate never returns on `None`. -/
def pyCallFilter (f : List Char → Bool) : Option (List Char) → Except String Bool
  | none => .error "TypeError: expected string or bytes-like object"
  | some t => .ok (f t)

/-- Specification-side characterisation: the string begins with a bracketed
numeral pair `【N-N】`. -/
def NumPairAtStart (s : List Char) : Prop :=
  ∃ a b rest, s = '【' :: (a ++ '-' :: (b ++ '】' :: rest)) ∧
    a ≠ [] ∧ b ≠ [] ∧ (∀ c ∈ a, isUnicodeDigit c = true) ∧ (∀ c ∈ b, isUnicodeDigit c = true)

/-- Specification-side characterisation: the string contains a bracketed span
`【...】` somewhere, with a non-empty body that contains no closing bracket. -/
def HasBracketSpan (s : List Char) : Prop :=
  ∃ pre mid post, s = pre ++ '【' :: (mid ++ '】' :: post) ∧
    mid ≠ [] ∧ '】' ∉ mid

theorem takeWhile_of_all_append {p : Char → Bool} (a : List Char) (x : Char)
    (t : List Char) (ha : ∀ c ∈ a, p c = true) (hx : p x = false) :
    (a ++ x :: t).takeWhile p = a ∧ (a ++ x :: t).dropWhile p = x :: t := by
  induction a with
  | nil => simp [List.takeWhile, List.dropWhile, hx]
  | cons c cs ih =>
      have hc : p c = true := ha c (by simp)
      have := ih (fun d hd => ha d (by simp [hd]))
      simp [List.takeWhile, List.dropWhile, hc, this.1, this.2]

theorem head_dropWhile_false {p : Char → Bool} (l : List Char) (x : Char)
    (xs : List Char) (h : l.dropWhile p = x :: xs) : p x = false := by
  induction l with
  | nil => simp at h
  | cons c cs ih =>
      by_cases hc : p c = true
      · rw [List.dropWhile_cons_of_pos hc] at h
        exact ih h
      · rw [List.dropWhile_cons_of_neg hc] at h
        injection h with h1 h2
        subst h1
        cases hpc : p c
        · rfl
        · exact absurd hpc hc

theorem numPairClose_sound (r2 : List Char) (h : numPairClose r2 = true) :
    ∃ b rest, r2 = b ++ '】' :: rest ∧ b ≠ [] ∧
      (∀ c ∈ b, isUnicodeDigit c = true) := by
  unfold numPairClose at h
  generalize h2 : r2.dropWhile isUnicodeDigit = q at h
  cases q with
  | nil => simp at h
  | cons e r3 =>
      simp only [Bool.and_eq_true, beq_iff_eq, Bool.not_eq_true',
        List.isEmpty_eq_false] at h
      obtain ⟨he, hb⟩ := h
      refine ⟨r2.takeWhile isUnicodeDigit, r3, ?_, hb, ?_⟩
      · subst he
        conv_lhs => rw [← List.takeWhile_append_dropWhile
          (p := isUnicodeDigit) (l := r2)]
        rw [h2]
      · intro c hc; exact List.mem_takeWhile_imp hc

theorem numPairTail_sound (r1 : List Char) (h : numPairTail r1 = true) :
    ∃ a b rest, r1 = a ++ '-' :: (b ++ '】' :: rest) ∧
      a ≠ [] ∧ b ≠ [] ∧ (∀ c ∈ a, isUnicodeDigit c = true) ∧
      (∀ c ∈ b, isUnicodeDigit c = true) := by
  unfold numPairTail at h
  generalize h1 : r1.dropWhile isUnicodeDigit = q at h
  cases q with
  | nil => simp at h
  | cons d r2 =>
      simp only [Bool.and_eq_true, beq_iff_eq, Bool.not_eq_true',
        List.isEmpty_eq_false] at h
      obtain ⟨⟨hd, ha⟩, h2⟩ := h
      obtain ⟨b, rest, hr2, hbne, hbdig⟩ := numPairClose_sound r2 h2
      refine ⟨r1.takeWhile isUnicodeDigit, b, rest, ?_, ha, hbne, ?_, hbdig⟩
      · subst hd
        have e1 : r1 = r1.takeWhile isUnicodeDigit ++ ('-' :: r2) := by
          conv_lhs => rw [← List.takeWhile_append_dropWhile
            (p := isUnicodeDigit) (l := r1)]
          rw [h1]
        rw [hr2] at e1
        exact e1
      · intro c hc; exact List.mem_takeWhile_imp hc

theorem numPairClose_complete (b rest : List Char) (hbne : b ≠ [])
    (hbdig : ∀ c ∈ b, isUnicodeDigit c = true) :
    numPairClose (b ++ '】' :: rest) = true := by
  have h2 := takeWhile_of_all_append (p := isUnicodeDigit) b '】' rest hbdig
    (by decide)
  unfold numPairClose
  rw [h2.2, h2.1]
  simp [List.isEmpty_iff, hbne]

theorem numPairTail_complete (a b rest : List Char) (hane : a ≠ [])
    (hbne : b ≠ []) (hadig : ∀ c ∈ a, isUnicodeDigit c = true)
    (hbdig : ∀ c ∈ b, isUnicodeDigit c = true) :
    numPairTail (a ++ '-' :: (b ++ '】' :: rest)) = true := by
  have h1 := takeWhile_of_all_append (p := isUnicodeDigit) a '-'
    (b ++ '】' :: rest) hadig (by decide)
  unfold numPairTail
  rw [h1.2, h1.1]
  simp [List.isEmpty_iff, hane, numPairClose_complete b rest hbne hbdig]

theorem reMatch_numPair_iff (s : List Char) :
    reMatch_numPair s = true ↔ NumPairAtStart s := by
  cases s with
  | nil =>
      simp only [reMatch_numPair]
      constructor
      · intro h; simp at h
      · rintro ⟨a, b, rest, hs, -⟩; exact absurd hs (by simp)
  | cons c r1 =>
      simp only [reMatch_numPair, Bool.and_eq_true, beq_iff_eq]
      constructor
      · rintro ⟨hc, htail⟩
        obtain ⟨a, b, rest, hr1, hane, hbne, hadig, hbdig⟩ :=
          numPairTail_sound r1 htail
        exact ⟨a, b, rest, by rw [hc, hr1], hane, hbne, hadig, hbdig⟩
      · rintro ⟨a, b, rest, hs, hane, hbne, hadig, hbdig⟩
        obtain ⟨hc, hr1⟩ : c = '【' ∧ r1 = a ++ '-' :: (b ++ '】' :: rest) := by
          constructor
          · exact (List.cons.injEq _ _ _ _ ▸ hs).1
          · exact (List.cons.injEq _ _ _ _ ▸ hs).2
        subst hr1
        exact ⟨hc, numPairTail_complete a b rest hane hbne hadig hbdig⟩

theorem bracketInner_sound (r : List Char) (h : bracketInner r = true) :
    ∃ mid post, r = mid ++ '】' :: post ∧ mid ≠ [] ∧ '】' ∉ mid := by
  cases r with
  | nil => simp [bracketInner] at h
  | cons c2 rest2 =>
      simp only [bracketInner, Bool.and_eq_true, bne_iff_ne, ne_eq,
        List.any_eq_true, beq_iff_eq] at h
      obtain ⟨hc2, x, hxmem, hx⟩ := h
      subst hx
      cases hdrop : rest2.dropWhile (fun d => d != '】') with
      | nil =>
          have hall := List.dropWhile_eq_nil_iff.mp hdrop '】' hxmem
          simp at hall
      | cons y ys =>
          have hy : y = '】' := by
            have := head_dropWhile_false (p := fun d => d != '】') rest2 y ys
              hdrop
            simpa using this
          subst hy
          refine ⟨c2 :: rest2.takeWhile (fun d => d != '】'), ys, ?_,
            by simp, ?_⟩
          · simp only [List.cons_append, List.cons.injEq, true_and]
            conv_lhs => rw [← List.takeWhile_append_dropWhile
              (p := fun d => d != '】') (l := rest2)]
            rw [hdrop]
          · intro hmem
            rcases List.mem_cons.mp hmem with h | h
            · exact hc2 h.symm
            · have := List.mem_takeWhile_imp h
              simp at this

theorem bracketInner_complete (mid post : List Char) (hne : mid ≠ [])
    (hnm : '】' ∉ mid) : bracketInner (mid ++ '】' :: post) = true := by
  cases mid with
  | nil => exact absurd rfl hne
  | cons m mid2 =>
      simp only [List.cons_append, bracketInner, Bool.and_eq_true, bne_iff_ne,
        ne_eq, List.any_eq_true, beq_iff_eq]
      constructor
      · intro hcontra
        exact hnm (by simp [hcontra])
      · exact ⟨'】', by simp, rfl⟩

theorem reSearch_bracketSpan_iff (s : List Char) :
    reSearch_bracketSpan s = true ↔ HasBracketSpan s := by
  induction s with
  | nil =>
      simp only [reSearch_bracketSpan]
      constructor
      · intro h; simp at h
      · rintro ⟨pre, mid, post, hs, -⟩; exact absurd hs (by simp)
  | cons c rest ih =>
      simp only [reSearch_bracketSpan, Bool.or_eq_true, Bool.and_eq_true,
        beq_iff_eq]
      constructor
      · intro h
        rcases h with ⟨hc, hinner⟩ | h
        · obtain ⟨mid, post, hrest, hne, hnm⟩ := bracketInner_sound rest hinner
          exact ⟨[], mid, post, by rw [hc, hrest]; rfl, hne, hnm⟩
        · obtain ⟨pre, mid, post, hrest, hne, hnm⟩ := ih.mp h
          exact ⟨c :: pre, mid, post, by rw [hrest]; rfl, hne, hnm⟩
      · rintro ⟨pre, mid, post, hs, hne, hnm⟩
        cases pre with
        | nil =>
            left
            simp only [List.nil_append, List.cons.injEq] at hs
            exact ⟨hs.1, hs.2 ▸ bracketInner_complete mid post hne hnm⟩
        | cons p pre2 =>
            right
            simp only [List.cons_append, List.cons.injEq] at hs
            exact ih.mpr ⟨pre2, mid, post, hs.2, hne, hnm⟩

/-- Sample lessons for witness instantiations. -/
def sampleLesson : Lesson :=
  { id := "自然_0", subject := "自然", title := "【1-1】植物的營養",
    content := "【1-1】植物的營養", source_url := "https://example.com" }

def sampleLesson2 : Lesson :=
  { id := "國文_0", subject := "國文", title := "【第一課】聲音鐘",
    content := "【第一課】聲音鐘", source_url := "https://example.com" }

/-- C1: for every non-empty lesson list and every date,
`select_daily_lesson` returns the element at index
`(day_of_year - 1) mod len(lessons)` where `day_of_year` is the 1-based
ordinal day of the date; consequently two dates with the same ordinal
day-of-year value select the same element from the same pool. -/
theorem C1_select_by_day_of_year (lessons : List Lesson) (dt1 dt2 : PyDate)
    (hne : lessons ≠ []) (hday : 1 ≤ dt1.tm_yday) :
    select_daily_lesson dt1 lessons =
      .ok (lessons.get ⟨(dt1.tm_yday - 1) % lessons.length,
        Nat.mod_lt _ (List.length_pos.mpr hne)⟩) ∧
    (dt1.tm_yday = dt2.tm_yday →
      select_daily_lesson dt1 lessons = select_daily_lesson dt2 lessons) := by
  constructor
  · simp only [select_daily_lesson, dif_neg hne]
  · intro h
    simp only [select_daily_lesson, dif_neg hne, h]

/-- C1 witness: day 5 of 2024 and day 5 of 2025 on a two-element pool both
yield the element at index `(5 - 1) % 2 = 0`. -/
theorem C1_select_by_day_of_year_witness :
    select_daily_lesson ⟨2024, 5⟩ [sampleLesson, sampleLesson2] =
      .ok ([sampleLesson, sampleLesson2].get ⟨(5 - 1) % 2, by decide⟩) ∧
    select_daily_lesson ⟨2024, 5⟩ [sampleLesson, sampleLesson2] =
      select_daily_lesson ⟨2025, 5⟩ [sampleLesson, sampleLesson2] := by
  have h := C1_select_by_day_of_year [sampleLesson, sampleLesson2]
    ⟨2024, 5⟩ ⟨2025, 5⟩ (by simp) (by decide)
  exact ⟨h.1, h.2 rfl⟩

/-- C2: the Nature, History, Geography and Civics predicates hold exactly on
strings beginning with a bracketed numeral pair `【N-N】`; the Chinese
predicate holds exactly on strings containing a bracketed span `【...】`
anywhere; the four concrete examples from the spec evaluate as stated, and
a fullwidth-digit title (Unicode Nd outside ASCII) is accepted as the
source's `\d` accepts it. -/
theorem C2_subject_filters :
    (∀ s, SubjectFilter.filter_nature s = true ↔ NumPairAtStart s) ∧
    (∀ s, SubjectFilter.filter_history s = true ↔ NumPairAtStart s) ∧
    (∀ s, SubjectFilter.filter_geography s = true ↔ NumPairAtStart s) ∧
    (∀ s, SubjectFilter.filter_civics s = true ↔ NumPairAtStart s) ∧
    (∀ s, SubjectFilter.filter_chinese s = true ↔ HasBracketSpan s) ∧
    SubjectFilter.filter_nature ("【1-1】X".toList) = true ∧
    SubjectFilter.filter_nature ("X".toList) = false ∧
    SubjectFilter.filter_chinese ("【A】B".toList) = true ∧
    SubjectFilter.filter_chinese ("AB".toList) = false ∧
    SubjectFilter.filter_nature ("【１-１】X".toList) = true := by
  refine ⟨reMatch_numPair_iff, reMatch_numPair_iff, reMatch_numPair_iff,
    reMatch_numPair_iff, reSearch_bracketSpan_iff, ?_, ?_, ?_, ?_, ?_⟩ <;>
    decide

/-- C2 witness: the numeral-pair characterisation applied at a concrete
multi-digit title. -/
theorem C2_subject_filters_witness :
    SubjectFilter.filter_nature ("【12-34】X".toList) = true :=
  ((C2_subject_filters).1 _).mpr
    ⟨['1', '2'], ['3', '4'], ['X'], by decide, by decide, by decide,
      by decide, by decide⟩

/-- C6 (code bug): the spec and the repo's own test
(`test_filter_edge_cases`) demand that each filter return `false` on `None`
without raising, but the Python predicates pass `None` straight to
`re.match`/`re.search`, which raise `TypeError`; on the empty string they do
return `false`. -/
theorem C6_none_input_raises :
    pyCallFilter SubjectFilter.filter_nature none =
      .error "TypeError: expected string or bytes-like object" ∧
    pyCallFilter SubjectFilter.filter_chinese none =
      .error "TypeError: expected string or bytes-like object" ∧
    pyCallFilter SubjectFilter.filter_history none =
      .error "TypeError: expected string or bytes-like object" ∧
    pyCallFilter SubjectFilter.filter_geography none =
      .error "TypeError: expected string or bytes-like object" ∧
    pyCallFilter SubjectFilter.filter_civics none =
      .error "TypeError: expected string or bytes-like object" ∧
    pyCallFilter SubjectFilter.filter_nature (some []) = .ok false ∧
    pyCallFilter SubjectFilter.filter_chinese (some []) = .ok false ∧
    pyCallFilter SubjectFilter.filter_history (some []) = .ok false ∧
    pyCallFilter SubjectFilter.filter_geography (some []) = .ok false ∧
    pyCallFilter SubjectFilter.filter_civics (some []) = .ok false :=
  ⟨rfl, rfl, rfl, rfl, rfl, rfl, rfl, rfl, rfl, rfl⟩

/-- C9: for a pool of size N, selecting on N consecutive simulated days
(consecutive ordinal day-of-year values) visits every index of the pool at
least once, and the selection on day d+N equals the selection on day d. -/
theorem C9_n_day_cycle (lessons : List Lesson) (y : Int) (d : Nat)
    (hne : lessons ≠ []) (hd : 1 ≤ d) :
    (∀ i : Fin lessons.length, ∃ j < lessons.length,
      select_daily_lesson ⟨y, d + j⟩ lessons = .ok (lessons.get i)) ∧
    select_daily_lesson ⟨y, d + lessons.length⟩ lessons =
      select_daily_lesson ⟨y, d⟩ lessons := by
  have hN : 0 < lessons.length := List.length_pos.mpr hne
  constructor
  · rintro ⟨i, hi⟩
    set N := lessons.length with hNdef
    set r := (d - 1) % N with hr
    have hrN : r < N := Nat.mod_lt _ hN
    refine ⟨(i + N - r) % N, Nat.mod_lt _ hN, ?_⟩
    have hq := Nat.div_add_mod (d - 1) N
    have key : (d + (i + N - r) % N - 1) % N = i := by
      have e0 : d + (i + N - r) % N - 1 = (d - 1) + (i + N - r) % N := by
        omega
      rw [e0]
      have e1 : (d - 1 + (i + N - r) % N) % N = (d - 1 + (i + N - r)) % N :=
        Nat.ModEq.add_left _ (Nat.mod_modEq _ _)
      rw [e1]
      have e2 : d - 1 + (i + N - r) = N * ((d - 1) / N) + (i + N) := by
        omega
      rw [e2, Nat.mul_add_mod, Nat.add_mod_right, Nat.mod_eq_of_lt hi]
    simp only [select_daily_lesson, dif_neg hne]
    exact congrArg Except.ok (congrArg lessons.get (Fin.ext key))
  · have h2 : (d + lessons.length - 1) % lessons.length =
        (d - 1) % lessons.length := by
      have e : d + lessons.length - 1 = (d - 1) + lessons.length := by omega
      rw [e, Nat.add_mod_right]
    simp only [select_daily_lesson, dif_neg hne]
    exact congrArg Except.ok (congrArg lessons.get (Fin.ext h2))

/-- C9 witness: a two-element pool starting at day 3 of some year. -/
theorem C9_n_day_cycle_witness :
    (∀ i : Fin ([sampleLesson, sampleLesson2] : List Lesson).length,
      ∃ j < ([sampleLesson, sampleLesson2] : List Lesson).length,
        select_daily_lesson ⟨2024, 3 + j⟩ [sampleLesson, sampleLesson2] =
          .ok ([sampleLesson, sampleLesson2].get i)) ∧
    select_daily_lesson ⟨2024, 3 + ([sampleLesson, sampleLesson2] :
        List Lesson).length⟩ [sampleLesson, sampleLesson2] =
      select_daily_lesson ⟨2024, 3⟩ [sampleLesson, sampleLesson2] :=
  C9_n_day_cycle [sampleLesson, sampleLesson2] 2024 3 (by simp) (by decide)

/-- C10: `select_daily_lesson` raises `ValueError` exactly on the empty
lesson list, and on every non-empty list returns a member of the list
without raising. -/
theorem C10_empty_pool_raises (today : PyDate) (lessons : List Lesson)
    (hne : lessons ≠ []) :
    select_daily_lesson today [] =
      .error "No lessons available for selection" ∧
    ∃ l, select_daily_lesson today lessons = .ok l ∧ l ∈ lessons := by
  refine ⟨rfl, ?_⟩
  simp only [select_daily_lesson, dif_neg hne]
  exact ⟨_, rfl, lessons.get_mem _ _⟩

/-- C10 witness: the empty pool errors; the two-element pool returns a
member. -/
theorem C10_empty_pool_raises_witness :
    select_daily_lesson ⟨2024, 5⟩ [] =
      .error "No lessons available for selection" ∧
    ∃ l, select_daily_lesson ⟨2024, 5⟩ [sampleLesson, sampleLesson2] =
      .ok l ∧ l ∈ [sampleLesson, sampleLesson2] :=
  C10_empty_pool_raises ⟨2024, 5⟩ [sampleLesson, sampleLesson2] (by simp)

/-- Subject→placeholder-URL mapping of `MockImageGenerator.__init__`
(image_service.py lines 87-93). -/
def subject_image_templates : List (String × String) :=
  [("自然", "https://via.placeholder.com/1024x1024/4CAF50/FFFFFF?text=自然科學"),
   ("國文", "https://via.placeholder.com/1024x1024/FF9800/FFFFFF?text=國文"),
   ("歷史", "https://via.placeholder.com/1024x1024/795548/FFFFFF?text=歷史"),
   ("地理", "https://via.placeholder.com/1024x1024/2196F3/FFFFFF?text=地理"),
   ("公民", "https://via.placeholder.com/1024x1024/9C27B0/FFFFFF?text=公民")]

/-- Embedding of `MockImageGenerator.generate_image` (image_service.py lines
95-107).  `pyHash` models Python's builtin `hash` on `str`, which is salted
per process (PYTHONHASHSEED): one fixed function per process.  Python's
`hash(title) % 10000` is `Int.emod`, hence non-negative, and `f"...{n}"` of a
non-negative int matches `toString`. -/
def MockImageGenerator.generate_image (pyHash : String → Int)
    (subject title _content : String) : Option String :=
  match subject_image_templates.lookup subject with
  | some base_url =>
      some (base_url ++ "&lesson=" ++ toString (pyHash title % 10000))
  | none =>
      some ("https://via.placeholder.com/1024x1024/607D8B/FFFFFF?text=教育內容&lesson="
        ++ toString (pyHash title % 10000))

/-- C5 (amended): within one process (one fixed string-hash function) the
mock generator is total and deterministic: it always returns `some` URL and
repeated calls with identical arguments return the same URL; it is a pure
function (no network, no failure).  Cross-process determinism is NOT
provable: the URL depends on the per-process hash salt (see the
counterexample). -/
theorem C5_mock_generator_deterministic_per_process (pyHash : String → Int)
    (s t c : String) :
    (MockImageGenerator.generate_image pyHash s t c).isSome = true ∧
    MockImageGenerator.generate_image pyHash s t c =
      MockImageGenerator.generate_image pyHash s t c := by
  refine ⟨?_, rfl⟩
  unfold MockImageGenerator.generate_image
  rcases subject_image_templates.lookup s with _ | base <;> rfl

/-- C5 counterexample: identical inputs in two processes whose (salted)
string-hash functions differ on the title yield different URLs, refuting the
claimed determinism across runs/processes. -/
theorem C5_cross_process_counterexample :
    MockImageGenerator.generate_image (fun _ => 0) "自然" "測試課程" "c" ≠
      MockImageGenerator.generate_image (fun _ => 1) "自然" "測試課程" "c" := by
  decide

/-- Embedding of `EducationalImageService.generate_lesson_image`
(image_service.py lines 117-119): pure delegation to the injected
generator. -/
def EducationalImageService.generate_lesson_image
    (gen : String → String → String → Option String)
    (subject lesson_title content : String) : Option String :=
  gen subject lesson_title content

/-- Python truthiness of an optional string: `None` and `""` are falsy. -/
def pyTruthy : Option String → Bool
  | none => false
  | some u => !u.isEmpty

/-- Embedding of `DailyLessonOrchestrator._enhance_lesson_with_image`
(orchestrator.py lines 103-122), instrumented with the list of generator
invocations (argument triples) so that "calls the generator exactly once" is
expressible.  The source tests the generator's reply with Python truthiness
(`if image_url:`, orchestrator.py line 113), so the falsy empty string takes
the failure branch like `None`.  The step contains no raising construct of
its own: given a generator that returns (the `ImageGenerator` interface
contract), it is a total function.  `now` is `datetime.now().isoformat()`. -/
def _enhance_lesson_with_image
    (gen : String → String → String → Option String) (now : String)
    (lesson_data : Lesson) : Lesson × List (String × String × String) :=
  let image_url := EducationalImageService.generate_lesson_image gen
    lesson_data.subject lesson_data.title lesson_data.content
  (if pyTruthy image_url then
     { lesson_data with
       image_url := image_url,
       image_generated_at := some now }
   else
     { lesson_data with
       image_url := none,
       image_error := some "圖像生成失敗" },
   [(lesson_data.subject, lesson_data.title, lesson_data.content)])

/-- C3: the enhancement step calls the generator exactly once, with the
lesson's subject, title and content; the source tests the reply with Python
truthiness (`if image_url:`), so a returned URL (a non-empty string) sets
`image_url` and `image_generated_at`, while `None` — and likewise the falsy
empty string — sets `image_url := none` and the `image_error` marker; being
a total function it never raises, so it cannot abort the run. -/
theorem C3_enhance_with_image
    (gen : String → String → String → Option String) (now : String)
    (l : Lesson) :
    (_enhance_lesson_with_image gen now l).2 =
      [(l.subject, l.title, l.content)] ∧
    (∀ u, gen l.subject l.title l.content = some u → u ≠ "" →
      (_enhance_lesson_with_image gen now l).1 =
        { l with
          image_url := some u,
          image_generated_at := some now }) ∧
    (gen l.subject l.title l.content = none →
      (_enhance_lesson_with_image gen now l).1 =
        { l with
          image_url := none,
          image_error := some "圖像生成失敗" }) ∧
    (gen l.subject l.title l.content = some "" →
      (_enhance_lesson_with_image gen now l).1 =
        { l with
          image_url := none,
          image_error := some "圖像生成失敗" }) := by
  refine ⟨rfl, ?_, ?_, ?_⟩
  · intro u hu hne
    have hue : u.isEmpty = false := by
      cases h : u.isEmpty
      · rfl
      · exact absurd ((String.isEmpty_iff u).mp h) hne
    simp [_enhance_lesson_with_image,
      EducationalImageService.generate_lesson_image, hu, pyTruthy, hue]
  · intro hn
    simp [_enhance_lesson_with_image,
      EducationalImageService.generate_lesson_image, hn, pyTruthy]
  · intro he
    have hfalse : pyTruthy (some "") = false := by decide
    simp [_enhance_lesson_with_image,
      EducationalImageService.generate_lesson_image, he, hfalse]

/-- C3 witness: all three generator outcomes at a concrete lesson. -/
theorem C3_enhance_with_image_witness :
    (_enhance_lesson_with_image (fun _ _ _ => some "https://img.example/x")
        "2024-01-01T08:00:00" sampleLesson).1 =
      { sampleLesson with
        image_url := some "https://img.example/x",
        image_generated_at := some "2024-01-01T08:00:00" } ∧
    (_enhance_lesson_with_image (fun _ _ _ => none)
        "2024-01-01T08:00:00" sampleLesson).1 =
      { sampleLesson with
        image_url := none,
        image_error := some "圖像生成失敗" } ∧
    (_enhance_lesson_with_image (fun _ _ _ => some "")
        "2024-01-01T08:00:00" sampleLesson).1 =
      { sampleLesson with
        image_url := none,
        image_error := some "圖像生成失敗" } :=
  ⟨(C3_enhance_with_image (fun _ _ _ => some "https://img.example/x")
      "2024-01-01T08:00:00" sampleLesson).2.1 "https://img.example/x" rfl
      (by decide),
   (C3_enhance_with_image (fun _ _ _ => none)
      "2024-01-01T08:00:00" sampleLesson).2.2.1 rfl,
   (C3_enhance_with_image (fun _ _ _ => some "")
      "2024-01-01T08:00:00" sampleLesson).2.2.2 rfl⟩

/-- Subject configuration records (orchestrator.py lines 36-62). -/
structure SubjectConfig where
  name : String
  url : String
  selector : String
deriving Repr, DecidableEq

/-- The five fixed subject configurations of `DailyLessonOrchestrator`. -/
def subjects : List SubjectConfig :=
  [⟨"自然", "https://www.learnmode.net/course/638520/content", "h3.chapter-name"⟩,
   ⟨"國文", "https://www.learnmode.net/course/638508/content", "h3.chapter-name"⟩,
   ⟨"歷史", "https://www.learnmode.net/course/638740/content", "h3.chapter-name"⟩,
   ⟨"地理", "https://www.learnmode.net/course/638739/content", "h3.chapter-name"⟩,
   ⟨"公民", "https://www.learnmode.net/course/638741/content", "h3.chapter-name"⟩]

/-- Embedding of `_fetch_all_lessons` (orchestrator.py lines 88-101):
sequential accumulation over the subject list; the injected fetcher is a
parameter.  The `time.sleep(2)` courtesy delay has no observable effect in
the model. -/
def _fetch_all_lessons (fetch : SubjectConfig → List Lesson) : List Lesson :=
  subjects.foldl (fun acc s => acc ++ fetch s) []

/-- Observable outcome of one orchestrator run: how many times the selector,
the image generator and the renderers were invoked, and the (path, content)
files written by `_save_lesson_content`. -/
structure RunTrace where
  selector_calls : Nat
  generator_calls : Nat
  renderer_calls : Nat
  files_written : List (String × String)
deriving Repr, DecidableEq

/-- Embedding of `execute_daily_lesson_generation` (orchestrator.py lines
64-86) with the injected collaborators as parameters (the constructor's
dependency injection).  An exception propagating out of a step (here only
the selector can raise) is `Except.error`; `date_str` is
`datetime.now().strftime('%Y-%m-%d')`. -/
def execute_daily_lesson_generation
    (fetch : SubjectConfig → List Lesson)
    (gen : String → String → String → Option String)
    (html_render json_render : Lesson → String → String)
    (today : PyDate) (now date_str : String) : Except String RunTrace :=
  let all_lessons := _fetch_all_lessons fetch
  if all_lessons.isEmpty then
    .ok ⟨0, 0, 0, []⟩
  else
    match select_daily_lesson today all_lessons with
    | .error e => .error e
    | .ok daily_lesson =>
        let enhanced := _enhance_lesson_with_image gen now daily_lesson
        let html_content := html_render enhanced.1 date_str
        let json_content := json_render enhanced.1 date_str
        .ok ⟨1, enhanced.2.length, 2,
          [("docs/" ++ date_str ++ ".html", html_content),
           ("docs/" ++ date_str ++ ".json", json_content)]⟩

/-- C4: if the accumulated pool after the fetch phase is empty, the run
terminates without error, the selector, generator and renderers are never
invoked, and no output file is written. -/
theorem C4_empty_pool_clean_exit (fetch : SubjectConfig → List Lesson)
    (gen : String → String → String → Option String)
    (html_render json_render : Lesson → String → String)
    (today : PyDate) (now date_str : String)
    (hempty : _fetch_all_lessons fetch = []) :
    execute_daily_lesson_generation fetch gen html_render json_render
      today now date_str = .ok ⟨0, 0, 0, []⟩ := by
  simp [execute_daily_lesson_generation, hempty]

/-- C4 witness: a fetcher that yields no lessons for any subject. -/
theorem C4_empty_pool_clean_exit_witness :
    execute_daily_lesson_generation (fun _ => []) (fun _ _ _ => none)
      (fun _ _ => "") (fun _ _ => "") ⟨2024, 5⟩ "2024-01-05T08:00:00"
      "2024-01-05" = .ok ⟨0, 0, 0, []⟩ :=
  C4_empty_pool_clean_exit (fun _ => []) (fun _ _ _ => none)
    (fun _ _ => "") (fun _ _ => "") ⟨2024, 5⟩ "2024-01-05T08:00:00"
    "2024-01-05" rfl

/-! ## URL quoting and the HTML renderers (content_renderer.py) -/

/-- UTF-8 encoding of one scalar value; `urllib.parse.quote` encodes the
string to UTF-8 before percent-encoding. -/
def utf8Bytes (c : Char) : List Nat :=
  let n := c.toNat
  if n < 0x80 then [n]
  else if n < 0x800 then [0xC0 + n / 0x40, 0x80 + n % 0x40]
  else if n < 0x10000 then
    [0xE0 + n / 0x1000, 0x80 + n / 0x40 % 0x40, 0x80 + n % 0x40]
  else
    [0xF0 + n / 0x40000, 0x80 + n / 0x1000 % 0x40, 0x80 + n / 0x40 % 0x40,
     0x80 + n % 0x40]

/-- Uppercase hex digit (`urllib.parse.quote` emits `%XX` in uppercase). -/
def hexDigitUpper (n : Nat) : Char :=
  if n < 10 then Char.ofNat (48 + n) else Char.ofNat (55 + n)

/-- Bytes never percent-encoded by `urllib.parse.quote` with its default
`safe='/'`: ASCII letters, digits, `_`, `.`, `-`, `~`, and `/`. -/
def quoteSafeByte (b : Nat) : Bool :=
  (decide (48 <= b) && decide (b <= 57)) ||
  (decide (65 <= b) && decide (b <= 90)) ||
  (decide (97 <= b) && decide (b <= 122)) ||
  b == 95 || b == 46 || b == 45 || b == 126 || b == 47

/-- Percent-encoding of a single byte by `urllib.parse.quote`. -/
def quoteByte (b : Nat) : List Char :=
  if quoteSafeByte b then [Char.ofNat b]
  else ['%', hexDigitUpper (b / 16), hexDigitUpper (b % 16)]

/-- Embedding of `urllib.parse.quote(s)` with default parameters:
UTF-8 encode, then percent-encode every byte outside the safe set. -/
def urllib_parse_quote (s : List Char) : List Char :=
  (s.flatMap utf8Bytes).flatMap quoteByte

/-- The Perplexity prompt: fixed Chinese text with the lesson title
interpolated at the end (content_renderer.py lines 22 and 172). -/
def promptFor (title : List Char) : List Char :=
  "請根據附檔的課文教學重點格式，提供一篇詳細的課文學習教材，內容盡可能的詳細，題目如下: ".toList ++ title

/-- `url_encoded` local of both renderers (content_renderer.py lines 23 and
173). -/
def url_encoded (title : List Char) : List Char :=
  urllib_parse_quote (promptFor title)

/-- `perplexity_link` local of both renderers (content_renderer.py lines 24
and 174). -/
def perplexity_link (title : List Char) : List Char :=
  "https://www.perplexity.ai/search?q=".toList ++ url_encoded title

/-- Embedding of `EnhancedHtmlRenderer._generate_image_html`
(content_renderer.py lines 145-150). -/
def _generate_image_html (image_url : Option String) : List Char :=
  if pyTruthy image_url then
    "<img src=\"".toList ++ (image_url.getD "").toList ++
      "\" alt=\"課程圖像\" class=\"lesson-image\" onerror=\"this.style.display=\x27none\x27\">".toList
  else
    "<div class=\"image-placeholder\">課程圖像生成中...</div>".toList

def enhancedPart1 : List Char :=
  "<!DOCTYPE html>\n<html lang=\"zh-Hant\">\n<head>\n    <meta charset=\"utf-8\">\n    <meta name=\"viewport\" content=\"width=device-width, initial-scale=1.0\">\n    <title>".toList

def enhancedPart2 : List Char :=
  " - ".toList

def enhancedPart3 : List Char :=
  "</title>\n    <style>\n        body \x7b\n            font-family: \"Microsoft JhengHei\", sans-serif;\n            background-color: #f8f9fa;\n            margin: 0;\n            padding: 20px;\n        \x7d\n        .container \x7b\n            max-width: 800px;\n            margin: 0 auto;\n            background: white;\n            padding: 30px;\n            border-radius: 10px;\n            box-shadow: 0 2px 10px rgba(0,0,0,0.1);\n        \x7d\n        h1 \x7b\n            color: #2c3e50;\n            text-align: center;\n            margin-bottom: 10px;\n        \x7d\n        .subject \x7b\n            color: #7f8c8d;\n            text-align: center;\n            font-size: 1.2em;\n            margin-bottom: 30px;\n        \x7d\n        .lesson-image \x7b\n            width: 100%;\n            max-width: 600px;\n            height: auto;\n            display: block;\n            margin: 20px auto;\n            border-radius: 10px;\n            box-shadow: 0 4px 8px rgba(0,0,0,0.1);\n        \x7d\n        .redirect-info \x7b\n            text-align: center;\n            padding: 20px;\n            background-color: #e8f5e8;\n            border-radius: 5px;\n            margin-top: 20px;\n        \x7d\n        .countdown \x7b\n            font-size: 1.5em;\n            color: #27ae60;\n            font-weight: bold;\n        \x7d\n        .manual-link \x7b\n            display: inline-block;\n            margin-top: 15px;\n            padding: 10px 20px;\n            background-color: #3498db;\n            color: white;\n            text-decoration: none;\n            border-radius: 5px;\n            transition: background-color 0.3s;\n        \x7d\n        .manual-link:hover \x7b\n            background-color: #2980b9;\n        \x7d\n        .image-placeholder \x7b\n            width: 100%;\n            height: 300px;\n            background-color: #ecf0f1;\n            display: flex;\n            align-items: center;\n            justify-content: center;\n            color: #7f8c8d;\n            font-size: 1.1em;\n            border-radius: 10px;\n            margin: 20px 0;\n        \x7d\n    </style>\n</head>\n<body>\n    <div class=\"container\">\n        <h1>".toList

def enhancedPart4 : List Char :=
  "</h1>\n        <div class=\"subject\">".toList

def enhancedPart5 : List Char :=
  "</div>\n        \n        ".toList

def enhancedPart6 : List Char :=
  "\n        \n        <div class=\"redirect-info\">\n            <p>將在 <span class=\"countdown\" id=\"countdown\">5</span> 秒後自動跳轉到學習內容...</p>\n            <p>或點擊下方按鈕直接前往：</p>\n            <a href=\"".toList

def enhancedPart7 : List Char :=
  "\" class=\"manual-link\">開始學習</a>\n        </div>\n    </div>\n\n    <script>\n        let seconds = 5;\n        const countdownElement = document.getElementById(\x27countdown\x27);\n        \n        function updateCountdown() \x7b\n            countdownElement.textContent = seconds;\n            seconds--;\n            \n            if (seconds < 0) \x7b\n                window.location.href = \x27".toList

def enhancedPart8 : List Char :=
  "\x27;\n            \x7d\n        \x7d\n        \n        // Update countdown every second\n        setInterval(updateCountdown, 1000);\n        \n        // Initial update\n        updateCountdown();\n    </script>\n</body>\n</html>".toList

def legacyPart1 : List Char :=
  "<!DOCTYPE html>\n<html lang=\"zh-Hant\">\n<head>\n<meta charset=\"utf-8\">\n<meta http-equiv=\"refresh\" content=\"0;url=".toList

def legacyPart2 : List Char :=
  "\">\n<title>跳轉中...</title>\n</head>\n<body>\n如果沒有自動跳轉，請點擊 <a href=\"".toList

def legacyPart3 : List Char :=
  "\">".toList

def legacyPart4 : List Char :=
  "</a>\n</body>\n</html>".toList


/-- Embedding of `EnhancedHtmlRenderer.render` (content_renderer.py lines
15-143): the f-string template split at its interpolation points.
`date_str` is accepted and unused, exactly as in the source. -/
def EnhancedHtmlRenderer.render (lesson_data : Lesson) (_date_str : String) :
    List Char :=
  let title := lesson_data.title.toList
  let subject := lesson_data.subject.toList
  let link := perplexity_link title
  enhancedPart1 ++ title ++ enhancedPart2 ++ subject ++ enhancedPart3 ++
  title ++ enhancedPart4 ++ subject ++ enhancedPart5 ++
  _generate_image_html lesson_data.image_url ++ enhancedPart6 ++ link ++
  enhancedPart7 ++ link ++ enhancedPart8

/-- Embedding of `LegacyHtmlRenderer.render` (content_renderer.py lines
166-186). -/
def LegacyHtmlRenderer.render (lesson_data : Lesson) (_date_str : String) :
    List Char :=
  let title := lesson_data.title.toList
  let link := perplexity_link title
  legacyPart1 ++ link ++ legacyPart2 ++ link ++ legacyPart3 ++ title ++
  legacyPart4

/-- Reserved characters of RFC 3986 section 2.2 (gen-delims and sub-delims);
standard URL query-component encoding percent-encodes all of them. -/
def isReservedUriChar (c : Char) : Bool :=
  c == ':' || c == '/' || c == '?' || c == '#' || c == '[' || c == ']' ||
  c == '@' || c == '!' || c == '$' || c == '&' || c == '\x27' || c == '(' ||
  c == ')' || c == '*' || c == '+' || c == ',' || c == ';' || c == '='

theorem char_toNat_lt (c : Char) : c.toNat < 1114112 := by
  rcases c.valid with h | h
  · exact Nat.lt_trans h (by decide)
  · exact h.2

theorem utf8Bytes_lt_256 (c : Char) : ∀ b ∈ utf8Bytes c, b < 256 := by
  intro b hb
  have hn := char_toNat_lt c
  simp only [utf8Bytes] at hb
  split at hb
  · simp only [List.mem_cons, List.not_mem_nil, or_false] at hb
    omega
  · split at hb
    · simp only [List.mem_cons, List.not_mem_nil, or_false] at hb
      rcases hb with rfl | rfl <;> omega
    · split at hb
      · simp only [List.mem_cons, List.not_mem_nil, or_false] at hb
        rcases hb with rfl | rfl | rfl <;> omega
      · simp only [List.mem_cons, List.not_mem_nil, or_false] at hb
        rcases hb with rfl | rfl | rfl | rfl <;> omega

theorem quoteByte_chars (b : Nat) (hb : b < 256) :
    ∀ c ∈ quoteByte b, c.toNat < 128 ∧
      (isReservedUriChar c = true → c = '/') := by
  intro c hc
  unfold quoteByte at hc
  by_cases hs : quoteSafeByte b = true
  · rw [if_pos hs] at hc
    simp only [List.mem_cons, List.not_mem_nil, or_false] at hc
    subst hc
    have h128 : b < 128 := by
      simp only [quoteSafeByte, Bool.or_eq_true, Bool.and_eq_true,
        decide_eq_true_eq, beq_iff_eq] at hs
      omega
    have key : ∀ x : Fin 128, quoteSafeByte x.val = true →
        (Char.ofNat x.val).toNat < 128 ∧
        (isReservedUriChar (Char.ofNat x.val) = true →
          Char.ofNat x.val = '/') := by decide
    exact key ⟨b, h128⟩ hs
  · rw [if_neg hs] at hc
    have key : ∀ x : Fin 16, (hexDigitUpper x.val).toNat < 128 ∧
        (isReservedUriChar (hexDigitUpper x.val) = true →
          hexDigitUpper x.val = '/') := by decide
    have hhi : b / 16 < 16 := by omega
    have hlo : b % 16 < 16 := by omega
    simp only [List.mem_cons, List.not_mem_nil, or_false] at hc
    rcases hc with rfl | rfl | rfl
    · exact ⟨by decide, fun h => absurd h (by decide)⟩
    · exact key ⟨b / 16, hhi⟩
    · exact key ⟨b % 16, hlo⟩

theorem urllib_parse_quote_chars (s : List Char) :
    ∀ c ∈ urllib_parse_quote s, c.toNat < 128 ∧
      (isReservedUriChar c = true → c = '/') := by
  intro c hc
  unfold urllib_parse_quote at hc
  rcases List.mem_flatMap.mp hc with ⟨b, hb, hcb⟩
  rcases List.mem_flatMap.mp hb with ⟨ch, hch, hbch⟩
  exact quoteByte_chars b (utf8Bytes_lt_256 ch b hbch) c hcb

/-- C7 counterexample: with title `a/b`, the generated link's encoded query
still contains a literal `/` (a reserved character) coming from the title:
`urllib.parse.quote` defaults to `safe='/'`, so it does NOT percent-encode
every reserved character, contradicting the claim as stated. -/
theorem C7_slash_unencoded_counterexample :
    isReservedUriChar '/' = true ∧ '/' ∈ url_encoded ("a/b".toList) := by
  constructor
  · rfl
  · decide

/-- C7 (amended): every character of the encoded query component is ASCII,
and the only reserved character it can contain is `/` (left literal by
`urllib.parse.quote`'s default `safe='/'`); every non-ASCII character and
every other reserved character of the interpolated prompt, title included,
is percent-encoded.  Both HTML renderers embed exactly this link. -/
theorem C7_query_encoding (lesson : Lesson) (date_str : String) :
    (∀ c ∈ url_encoded lesson.title.toList, c.toNat < 128 ∧
      (isReservedUriChar c = true → c = '/')) ∧
    (∃ u v, EnhancedHtmlRenderer.render lesson date_str =
      u ++ perplexity_link lesson.title.toList ++ v) ∧
    (∃ u v, LegacyHtmlRenderer.render lesson date_str =
      u ++ perplexity_link lesson.title.toList ++ v) := by
  refine ⟨urllib_parse_quote_chars _, ?_, ?_⟩
  · exact ⟨enhancedPart1 ++ lesson.title.toList ++ enhancedPart2 ++
      lesson.subject.toList ++ enhancedPart3 ++ lesson.title.toList ++
      enhancedPart4 ++ lesson.subject.toList ++ enhancedPart5 ++
      _generate_image_html lesson.image_url ++ enhancedPart6,
      enhancedPart7 ++ perplexity_link lesson.title.toList ++ enhancedPart8,
      by simp [EnhancedHtmlRenderer.render, List.append_assoc]⟩
  · exact ⟨legacyPart1, legacyPart2 ++ perplexity_link lesson.title.toList ++
      legacyPart3 ++ lesson.title.toList ++ legacyPart4,
      by simp [LegacyHtmlRenderer.render, List.append_assoc]⟩

/-- C7 witness: the encoded query of a concrete title contains `%`, which is
ASCII and not reserved. -/
theorem C7_query_encoding_witness :
    ('%' ∈ url_encoded sampleLesson.title.toList) ∧
    ('%'.toNat < 128 ∧ (isReservedUriChar '%' = true → '%' = '/')) := by
  refine ⟨by decide, (C7_query_encoding sampleLesson "2024-01-05").1 '%'
    (by decide)⟩


/-! ## JSON renderer (content_renderer.py JsonRenderer) and a JSON parser -/

/-- JSON values, as a standard parser returns them (the fragment needed for
this system's output: strings, null, arrays, objects). -/
inductive Json where
  | str (s : List Char)
  | null
  | arr (xs : List Json)
  | obj (kvs : List (List Char × Json))
deriving Repr

/-- A Python value occurring in a lesson dict handed to the JSON renderer:
a string or `None` (the shapes produced by the fetcher and the enhancement
step). -/
inductive PyVal where
  | vstr (s : List Char)
  | vnone
deriving Repr, DecidableEq

/-- A lesson record as the JSON renderer receives it: a Python dict in
insertion order. -/
def LessonDict := List (List Char × PyVal)

/-- Lowercase hex digit (`json.dumps` emits `\u00xx` in lowercase). -/
def hexDigitLower (n : Nat) : Char :=
  if n < 10 then Char.ofNat (48 + n) else Char.ofNat (87 + n)

/-- `json.dumps` string escaping with `ensure_ascii=False`: `"`, `\`, and
control characters below 0x20 are escaped (`\b \t \n \f \r` short forms,
`\u00xx` otherwise); everything else, Unicode included, is emitted raw. -/
def escChar (c : Char) : List Char :=
  if c = '"' then ['\\', '"']
  else if c = '\\' then ['\\', '\\']
  else if c = '\n' then ['\\', 'n']
  else if c = '\t' then ['\\', 't']
  else if c = '\r' then ['\\', 'r']
  else if c = Char.ofNat 8 then ['\\', 'b']
  else if c = Char.ofNat 12 then ['\\', 'f']
  else if c.toNat < 32 then
    ['\\', 'u', '0', '0', hexDigitLower (c.toNat / 16),
     hexDigitLower (c.toNat % 16)]
  else [c]

/-- A JSON string literal as `json.dumps` emits it. -/
def jsonStr (s : List Char) : List Char :=
  '"' :: (s.flatMap escChar ++ ['"'])

/-- Serialization of one Python value. -/
def pyValJson : PyVal → List Char
  | .vstr s => jsonStr s
  | .vnone => "null".toList

/-- The parsed counterpart of a serialized Python value. -/
def jsonOfPyVal : PyVal → Json
  | .vstr s => .str s
  | .vnone => .null

/-- One `"key": value` entry of the serialized lesson object. -/
def lessonEntry (kv : List Char × PyVal) : List Char :=
  jsonStr kv.1 ++ ": ".toList ++ pyValJson kv.2

/-- `",\n" + indent` joining, as `json.dumps(indent=2)` separates items. -/
def joinEntries (sep : List Char) : List (List Char) → List Char
  | [] => []
  | [e] => e
  | e :: es => e ++ sep ++ joinEntries sep es

/-- The lesson object as `json.dumps(..., indent=2)` lays it out at depth 2
(keys indented by 6 spaces, closing brace by 4; an empty dict prints as
`{}`). -/
def lessonObj (lesson : LessonDict) : List Char :=
  match lesson with
  | [] => "\x7b\x7d".toList
  | _ =>
      "\x7b\n      ".toList ++
        joinEntries ",\n      ".toList (lesson.map lessonEntry) ++
        "\n    \x7d".toList

/-- Embedding of `JsonRenderer.render` (content_renderer.py lines 156-163):
`json.dumps({"date": date_str, "lessons": [lesson_data], "generated_at":
now}, ensure_ascii=False, indent=2)`, with `now` the
`datetime.now().isoformat()` timestamp. -/
def JsonRenderer.render (lesson_data : LessonDict) (date_str now : List Char) :
    List Char :=
  "\x7b\n  \"date\": ".toList ++ jsonStr date_str ++
  ",\n  \"lessons\": [\n    ".toList ++ lessonObj lesson_data ++
  "\n  ],\n  \"generated_at\": ".toList ++ jsonStr now ++
  "\n\x7d".toList

/-- The parsed fields of the serialized lesson. -/
def jsonEntries (lesson : LessonDict) : List (List Char × Json) :=
  lesson.map (fun kv => (kv.1, jsonOfPyVal kv.2))

/-- JSON whitespace. -/
def isJsonWs (c : Char) : Bool :=
  c == ' ' || c == '\n' || c == '\t' || c == '\r'

def skipWs (s : List Char) : List Char := s.dropWhile isJsonWs

/-- Hex digit value, for `\uXXXX` escapes. -/
def hexVal (c : Char) : Option Nat :=
  if '0' ≤ c ∧ c ≤ '9' then some (c.toNat - 48)
  else if 'a' ≤ c ∧ c ≤ 'f' then some (c.toNat - 87)
  else if 'A' ≤ c ∧ c ≤ 'F' then some (c.toNat - 55)
  else none

/-- Body of a JSON string literal after the opening quote: characters up to
the closing quote, decoding escapes.  Surrogate pairs are not recombined
(with `ensure_ascii=False` the serializer never emits them). -/
def parseStringBody : List Char → Option (List Char × List Char)
  | [] => none
  | c :: rest =>
    if c = '"' then some ([], rest)
    else if c = '\\' then
      match rest with
      | [] => none
      | e :: rest2 =>
        if e = '"' then (parseStringBody rest2).map (fun p => ('"' :: p.1, p.2))
        else if e = '\\' then
          (parseStringBody rest2).map (fun p => ('\\' :: p.1, p.2))
        else if e = '/' then
          (parseStringBody rest2).map (fun p => ('/' :: p.1, p.2))
        else if e = 'n' then
          (parseStringBody rest2).map (fun p => ('\n' :: p.1, p.2))
        else if e = 't' then
          (parseStringBody rest2).map (fun p => ('\t' :: p.1, p.2))
        else if e = 'r' then
          (parseStringBody rest2).map (fun p => ('\r' :: p.1, p.2))
        else if e = 'b' then
          (parseStringBody rest2).map (fun p => (Char.ofNat 8 :: p.1, p.2))
        else if e = 'f' then
          (parseStringBody rest2).map (fun p => (Char.ofNat 12 :: p.1, p.2))
        else if e = 'u' then
          match rest2 with
          | h1 :: h2 :: h3 :: h4 :: rest3 =>
            match hexVal h1, hexVal h2, hexVal h3, hexVal h4 with
            | some a, some b, some c4, some d =>
              (parseStringBody rest3).map (fun p =>
                (Char.ofNat (a * 4096 + b * 256 + c4 * 16 + d) :: p.1, p.2))
            | _, _, _, _ => none
          | _ => none
        else none
    else if c.toNat < 32 then none
    else (parseStringBody rest).map (fun p => (c :: p.1, p.2))

mutual

/-- Recursive-descent JSON value parser (fuel-indexed; the entry point
supplies enough fuel for any input).  Only the constructs this system's
output can contain are accepted: strings, `null`, arrays and objects. -/
def parseValue : Nat → List Char → Option (Json × List Char)
  | 0, _ => none
  | fuel + 1, s =>
    match skipWs s with
    | [] => none
    | c :: rest =>
      if c = '"' then
        (parseStringBody rest).map (fun p => (Json.str p.1, p.2))
      else if c = 'n' then
        match rest with
        | 'u' :: 'l' :: 'l' :: rest2 => some (Json.null, rest2)
        | _ => none
      else if c = '[' then
        match skipWs rest with
        | [] => none
        | c2 :: rest2 =>
            if c2 = ']' then some (Json.arr [], rest2)
            else parseArrayItems fuel rest []
      else if c = Char.ofNat 123 then
        match skipWs rest with
        | [] => none
        | c2 :: rest2 =>
            if c2 = Char.ofNat 125 then some (Json.obj [], rest2)
            else parseObjectItems fuel rest []
      else none

/-- Comma-separated array items, accumulating in order. -/
def parseArrayItems : Nat → List Char → List Json →
    Option (Json × List Char)
  | 0, _, _ => none
  | fuel + 1, s, acc =>
    match parseValue fuel s with
    | none => none
    | some (v, rest) =>
      match skipWs rest with
      | [] => none
      | c :: rest2 =>
          if c = ',' then parseArrayItems fuel rest2 (acc ++ [v])
          else if c = ']' then some (Json.arr (acc ++ [v]), rest2)
          else none

/-- Comma-separated `"key": value` object members, accumulating in order. -/
def parseObjectItems : Nat → List Char → List (List Char × Json) →
    Option (Json × List Char)
  | 0, _, _ => none
  | fuel + 1, s, acc =>
    match skipWs s with
    | [] => none
    | c :: rest =>
      if c = '"' then
        match parseStringBody rest with
        | none => none
        | some (k, rest2) =>
          match skipWs rest2 with
          | [] => none
          | c2 :: rest3 =>
            if c2 = ':' then
              match parseValue fuel rest3 with
              | none => none
              | some (v, rest4) =>
                match skipWs rest4 with
                | [] => none
                | c3 :: rest5 =>
                  if c3 = ',' then
                    parseObjectItems fuel rest5 (acc ++ [(k, v)])
                  else if c3 = Char.ofNat 125 then
                    some (Json.obj (acc ++ [(k, v)]), rest5)
                  else none
            else none
      else none

end

/-- Parse a complete JSON document: one value, then only whitespace. -/
def parseJson (s : List Char) : Option Json :=
  match parseValue (s.length + 1) s with
  | some (v, rest) => if (skipWs rest).isEmpty then some v else none
  | none => none


theorem skipWs_cons_not (c : Char) (x : List Char) (h : isJsonWs c = false) :
    skipWs (c :: x) = c :: x := by
  unfold skipWs
  rw [List.dropWhile_cons_of_neg (by simp [h])]

theorem skipWs_append_ws (w x : List Char)
    (hw : ∀ c ∈ w, isJsonWs c = true) : skipWs (w ++ x) = skipWs x := by
  induction w with
  | nil => rfl
  | cons c cs ih =>
      have hc := hw c (by simp)
      unfold skipWs at ih ⊢
      rw [List.cons_append, List.dropWhile_cons_of_pos hc]
      exact ih (fun d hd => hw d (by simp [hd]))

theorem hexVal_hexDigitLower (n : Nat) (h : n < 16) :
    hexVal (hexDigitLower n) = some n := by
  have key : ∀ x : Fin 16, hexVal (hexDigitLower x.val) = some x.val := by
    decide
  exact key ⟨n, h⟩

theorem parseStringBody_escape (s rest : List Char) :
    parseStringBody (s.flatMap escChar ++ '"' :: rest) = some (s, rest) := by
  induction s with
  | nil =>
      rw [parseStringBody.eq_def]
      simp
  | cons c cs ih =>
      have hflt : (c :: cs).flatMap escChar ++ '"' :: rest
          = escChar c ++ (cs.flatMap escChar ++ '"' :: rest) := by
        simp [List.flatMap_cons, List.append_assoc]
      rw [hflt]
      by_cases h1 : c = '"'
      · subst h1
        rw [parseStringBody.eq_def]
        simp [escChar, ih]
      by_cases h2 : c = '\\'
      · subst h2
        rw [parseStringBody.eq_def]
        simp [escChar, ih]
      by_cases h3 : c = '\n'
      · subst h3
        rw [parseStringBody.eq_def]
        simp [escChar, ih]
      by_cases h4 : c = '\t'
      · subst h4
        rw [parseStringBody.eq_def]
        simp [escChar, ih]
      by_cases h5 : c = '\r'
      · subst h5
        rw [parseStringBody.eq_def]
        simp [escChar, ih]
      by_cases h6 : c = Char.ofNat 8
      · subst h6
        rw [parseStringBody.eq_def]
        simp [escChar, ih]
      by_cases h7 : c = Char.ofNat 12
      · subst h7
        rw [parseStringBody.eq_def]
        simp [escChar, ih]
      by_cases h8 : c.toNat < 32
      · have hhi := hexVal_hexDigitLower (c.toNat / 16) (by omega)
        have hlo := hexVal_hexDigitLower (c.toNat % 16) (by omega)
        have hrebuild : c.toNat / 16 * 16 + c.toNat % 16 = c.toNat := by
          omega
        have h0 : hexVal '0' = some 0 := by decide
        rw [parseStringBody.eq_def]
        simp [escChar, h0, h1, h2, h3, h4, h5, h6, h7, h8, hhi, hlo,
          hrebuild, ih]
      · rw [parseStringBody.eq_def]
        simp [escChar, h1, h2, h3, h4, h5, h6, h7, h8, ih]


theorem jsonStr_cons_form (s X : List Char) :
    jsonStr s ++ X = '"' :: (s.flatMap escChar ++ '"' :: X) := by
  simp [jsonStr, List.append_assoc]

theorem skipWs_w_cons (w : List Char) (hw : ∀ c ∈ w, isJsonWs c = true)
    (c : Char) (hc : isJsonWs c = false) (x : List Char) :
    skipWs (w ++ (c :: x)) = c :: x := by
  rw [skipWs_append_ws w _ hw]
  exact skipWs_cons_not c x hc

theorem parseValue_jsonStr (fuel : Nat) (hf : 1 ≤ fuel) (w s rest : List Char)
    (hw : ∀ c ∈ w, isJsonWs c = true) :
    parseValue fuel (w ++ (jsonStr s ++ rest)) = some (.str s, rest) := by
  cases fuel with
  | zero => omega
  | succ f =>
      have hs : skipWs (w ++ (jsonStr s ++ rest)) =
          '"' :: (s.flatMap escChar ++ '"' :: rest) := by
        rw [jsonStr_cons_form]
        exact skipWs_w_cons w hw '"' (by decide) _
      rw [parseValue.eq_def]
      simp [hs, parseStringBody_escape]

theorem parseValue_null (fuel : Nat) (hf : 1 ≤ fuel) (w rest : List Char)
    (hw : ∀ c ∈ w, isJsonWs c = true) :
    parseValue fuel (w ++ ("null".toList ++ rest)) = some (.null, rest) := by
  cases fuel with
  | zero => omega
  | succ f =>
      have hs : skipWs (w ++ 'n' :: 'u' :: 'l' :: 'l' :: rest) =
          'n' :: 'u' :: 'l' :: 'l' :: rest :=
        skipWs_w_cons w hw 'n' (by decide) _
      rw [parseValue.eq_def]
      simp [hs]

theorem parseValue_pyVal (fuel : Nat) (hf : 1 ≤ fuel) (w rest : List Char)
    (v : PyVal) (hw : ∀ c ∈ w, isJsonWs c = true) :
    parseValue fuel (w ++ (pyValJson v ++ rest)) =
      some (jsonOfPyVal v, rest) := by
  cases v with
  | vstr s => exact parseValue_jsonStr fuel hf w s rest hw
  | vnone => exact parseValue_null fuel hf w rest hw


theorem parseObjectItems_entries (kvs : LessonDict) (hne : kvs ≠ [])
    (fuel : Nat) (hf : kvs.length + 1 ≤ fuel)
    (acc : List (List Char × Json)) (w rest : List Char)
    (hw : ∀ c ∈ w, isJsonWs c = true) :
    parseObjectItems fuel
      (w ++ (joinEntries ",\n      ".toList (kvs.map lessonEntry) ++
        ("\n    \x7d".toList ++ rest))) acc =
      some (.obj (acc ++ jsonEntries kvs), rest) := by
  induction kvs generalizing fuel acc w with
  | nil => exact absurd rfl hne
  | cons kv tl ih =>
      obtain ⟨k, v⟩ := kv
      cases fuel with
      | zero =>
          simp only [List.length_cons] at hf
          omega
      | succ f =>
          have hf1 : 1 ≤ f := by
            simp only [List.length_cons] at hf
            omega
          have hsgen : ∀ X : List Char, skipWs (w ++ '"' :: X) = '"' :: X :=
            fun X => skipWs_w_cons w hw '"' (by decide) X
          have hcl : ∀ X : List Char, skipWs (':' :: X) = ':' :: X :=
            fun X => skipWs_cons_not ':' X (by decide)
          have hcm : ∀ X : List Char, skipWs (',' :: X) = ',' :: X :=
            fun X => skipWs_cons_not ',' X (by decide)
          have hrb : ∀ X : List Char, skipWs ('\x7d' :: X) = '\x7d' :: X :=
            fun X => skipWs_cons_not '\x7d' X (by decide)
          have hnl : ∀ X : List Char, skipWs ('\n' :: X) = skipWs X :=
            fun X => by
              unfold skipWs
              rw [List.dropWhile_cons_of_pos (by decide)]
          have hsp : ∀ X : List Char, skipWs (' ' :: X) = skipWs X :=
            fun X => by
              unfold skipWs
              rw [List.dropWhile_cons_of_pos (by decide)]
          have hvgen : ∀ X : List Char,
              parseValue f (' ' :: (pyValJson v ++ X)) =
                some (jsonOfPyVal v, X) := fun X => by
            have := parseValue_pyVal f hf1 [' '] X v (by decide)
            simpa using this
          cases tl with
          | nil =>
              rw [parseObjectItems.eq_def]
              simp [joinEntries, lessonEntry, jsonStr, List.append_assoc,
                hsgen, parseStringBody_escape, hcl, hvgen, hnl, hsp, hrb,
                jsonEntries]
          | cons kv2 tl2 =>
              have hrec := ih (by simp) f
                (by simp only [List.length_cons] at hf ⊢; omega)
                (acc ++ [(k, jsonOfPyVal v)]) "\n      ".toList
                (by decide)
              simp [joinEntries, lessonEntry, jsonStr, List.append_assoc,
                jsonEntries] at hrec
              rw [parseObjectItems.eq_def]
              simp [joinEntries, lessonEntry, jsonStr, List.append_assoc,
                hsgen, parseStringBody_escape, hcl, hcm, hvgen, hnl, hsp,
                hrb, hrec, jsonEntries]


theorem parseValue_lessonObj (lesson : LessonDict) (fuel : Nat)
    (hf : lesson.length + 2 ≤ fuel) (w rest : List Char)
    (hw : ∀ c ∈ w, isJsonWs c = true) :
    parseValue fuel (w ++ (lessonObj lesson ++ rest)) =
      some (.obj (jsonEntries lesson), rest) := by
  cases fuel with
  | zero => omega
  | succ f =>
      have hsw : ∀ X : List Char,
          skipWs (w ++ '\x7b' :: X) = '\x7b' :: X :=
        fun X => skipWs_w_cons w hw '\x7b' (by decide) X
      have hrb : ∀ X : List Char, skipWs ('\x7d' :: X) = '\x7d' :: X :=
        fun X => skipWs_cons_not '\x7d' X (by decide)
      have hq : ∀ X : List Char, skipWs ('"' :: X) = '"' :: X :=
        fun X => skipWs_cons_not '"' X (by decide)
      have hnl : ∀ X : List Char, skipWs ('\n' :: X) = skipWs X :=
        fun X => by
          unfold skipWs
          rw [List.dropWhile_cons_of_pos (by decide)]
      have hsp : ∀ X : List Char, skipWs (' ' :: X) = skipWs X :=
        fun X => by
          unfold skipWs
          rw [List.dropWhile_cons_of_pos (by decide)]
      cases lesson with
      | nil =>
          rw [parseValue.eq_def]
          simp [lessonObj, hsw, hrb, jsonEntries]
      | cons kv tl =>
          have hloop := parseObjectItems_entries (kv :: tl) (by simp) f
            (by simp only [List.length_cons] at hf ⊢; omega) []
            "\n      ".toList rest (by decide)
          simp [lessonEntry, jsonStr, List.append_assoc,
            jsonEntries] at hloop
          obtain ⟨T, hT⟩ : ∃ T, joinEntries ",\n      ".toList
              ((kv :: tl).map lessonEntry) = '"' :: T := by
            cases tl with
            | nil =>
                exact ⟨kv.1.flatMap escChar ++ '"' :: ':' :: ' ' ::
                    pyValJson kv.2,
                  by simp [joinEntries, lessonEntry, jsonStr,
                    List.append_assoc]⟩
            | cons kv2 tl2 =>
                exact ⟨kv.1.flatMap escChar ++ '"' :: ':' :: ' ' ::
                    (pyValJson kv.2 ++ (",\n      ".toList ++
                      joinEntries ",\n      ".toList
                        ((kv2 :: tl2).map lessonEntry))),
                  by simp [joinEntries, lessonEntry, jsonStr,
                    List.append_assoc]⟩
          simp only [List.map_cons] at hT
          simp [lessonEntry, jsonStr, List.append_assoc] at hT
          rw [hT] at hloop
          simp only [List.cons_append] at hloop
          rw [parseValue.eq_def]
          simp [lessonObj, lessonEntry, jsonStr, List.append_assoc, hsw,
            hq, hnl, hsp, hT, hloop, jsonEntries]


theorem parseValue_lessons_array (lesson : LessonDict) (fuel : Nat)
    (hf : lesson.length + 4 ≤ fuel) (w rest : List Char)
    (hw : ∀ c ∈ w, isJsonWs c = true) :
    parseValue fuel (w ++ ('[' :: ("\n    ".toList ++ (lessonObj lesson ++
      ("\n  ]".toList ++ rest))))) =
      some (.arr [.obj (jsonEntries lesson)], rest) := by
  cases fuel with
  | zero => omega
  | succ f =>
  cases f with
  | zero => omega
  | succ f3 =>
      obtain ⟨L, hL⟩ : ∃ L, lessonObj lesson = '\x7b' :: L := by
        cases lesson with
        | nil => exact ⟨_, rfl⟩
        | cons kv tl => exact ⟨_, rfl⟩
      have hsw : ∀ X : List Char, skipWs (w ++ '[' :: X) = '[' :: X :=
        fun X => skipWs_w_cons w hw '[' (by decide) X
      have hob : ∀ X : List Char, skipWs ('\x7b' :: X) = '\x7b' :: X :=
        fun X => skipWs_cons_not '\x7b' X (by decide)
      have hrsq : ∀ X : List Char, skipWs (']' :: X) = ']' :: X :=
        fun X => skipWs_cons_not ']' X (by decide)
      have hnl : ∀ X : List Char, skipWs ('\n' :: X) = skipWs X :=
        fun X => by
          unfold skipWs
          rw [List.dropWhile_cons_of_pos (by decide)]
      have hsp : ∀ X : List Char, skipWs (' ' :: X) = skipWs X :=
        fun X => by
          unfold skipWs
          rw [List.dropWhile_cons_of_pos (by decide)]
      have hobj : ∀ X : List Char,
          parseValue f3 ("\n    ".toList ++ (lessonObj lesson ++ X)) =
            some (.obj (jsonEntries lesson), X) := fun X =>
        parseValue_lessonObj lesson f3 (by omega) "\n    ".toList X
          (by decide)
      rw [hL] at hobj
      simp only [List.cons_append] at hobj
      simp at hobj
      rw [parseValue.eq_def]
      simp only [hsw]
      simp [hL, hob, hnl, hsp]
      rw [parseArrayItems.eq_def]
      simp [hobj, hnl, hsp, hrsq]


theorem parseValue_render (lesson : LessonDict) (date_str now : List Char)
    (fuel : Nat) (hf : lesson.length + 8 ≤ fuel) :
    parseValue fuel (JsonRenderer.render lesson date_str now) =
      some (.obj [("date".toList, .str date_str),
        ("lessons".toList, .arr [.obj (jsonEntries lesson)]),
        ("generated_at".toList, .str now)], []) := by
  cases fuel with
  | zero => omega
  | succ f =>
  cases f with
  | zero => omega
  | succ f1 =>
  cases f1 with
  | zero => omega
  | succ f2 =>
  cases f2 with
  | zero => omega
  | succ f3 =>
      have hq : ∀ X : List Char, skipWs ('"' :: X) = '"' :: X :=
        fun X => skipWs_cons_not '"' X (by decide)
      have hcl : ∀ X : List Char, skipWs (':' :: X) = ':' :: X :=
        fun X => skipWs_cons_not ':' X (by decide)
      have hcm : ∀ X : List Char, skipWs (',' :: X) = ',' :: X :=
        fun X => skipWs_cons_not ',' X (by decide)
      have hrb : ∀ X : List Char, skipWs ('\x7d' :: X) = '\x7d' :: X :=
        fun X => skipWs_cons_not '\x7d' X (by decide)
      have hob : ∀ X : List Char, skipWs ('\x7b' :: X) = '\x7b' :: X :=
        fun X => skipWs_cons_not '\x7b' X (by decide)
      have hnl : ∀ X : List Char, skipWs ('\n' :: X) = skipWs X :=
        fun X => by
          unfold skipWs
          rw [List.dropWhile_cons_of_pos (by decide)]
      have hsp : ∀ X : List Char, skipWs (' ' :: X) = skipWs X :=
        fun X => by
          unfold skipWs
          rw [List.dropWhile_cons_of_pos (by decide)]
      have hkd : ∀ X : List Char,
          parseStringBody ('d' :: 'a' :: 't' :: 'e' :: '"' :: X) =
            some ("date".toList, X) := fun X => by
        have h := parseStringBody_escape "date".toList X
        simpa [escChar] using h
      have hkl : ∀ X : List Char,
          parseStringBody ('l' :: 'e' :: 's' :: 's' :: 'o' :: 'n' :: 's' ::
            '"' :: X) = some ("lessons".toList, X) := fun X => by
        have h := parseStringBody_escape "lessons".toList X
        simpa [escChar] using h
      have hkg : ∀ X : List Char,
          parseStringBody ('g' :: 'e' :: 'n' :: 'e' :: 'r' :: 'a' :: 't' ::
            'e' :: 'd' :: '_' :: 'a' :: 't' :: '"' :: X) =
            some ("generated_at".toList, X) := fun X => by
        have h := parseStringBody_escape "generated_at".toList X
        simpa [escChar] using h
      have hvd : ∀ X : List Char,
          parseValue (f3 + 2) (' ' :: (jsonStr date_str ++ X)) =
            some (.str date_str, X) := fun X => by
        have h := parseValue_jsonStr (f3 + 2) (by omega) [' '] date_str X
          (by decide)
        simpa using h
      have hvg : ∀ X : List Char,
          parseValue f3 (' ' :: (jsonStr now ++ X)) =
            some (.str now, X) := fun X => by
        have h := parseValue_jsonStr f3 (by omega) [' '] now X (by decide)
        simpa using h
      have harr : ∀ X : List Char,
          parseValue (f3 + 1) (' ' :: '[' :: '\n' :: ' ' :: ' ' :: ' ' ::
            ' ' :: (lessonObj lesson ++ '\n' :: ' ' :: ' ' :: ']' :: X)) =
            some (.arr [.obj (jsonEntries lesson)], X) := fun X => by
        have h := parseValue_lessons_array lesson (f3 + 1) (by omega) [' ']
          X (by decide)
        simpa using h
      simp only [JsonRenderer.render]
      rw [parseValue.eq_def]
      simp only [List.cons_append, List.append_assoc]
      simp [hob, hnl, hsp, hq]
      rw [parseObjectItems.eq_def]
      simp [hq, hkd, hcl, hvd, hcm, hnl, hsp]
      rw [parseObjectItems.eq_def]
      simp [hq, hkl, hcl, harr, hcm, hnl, hsp]
      rw [parseObjectItems.eq_def]
      simp [hq, hkg, hcl, hvg, hrb, hnl, hsp]


theorem joinEntries_lessonEntry_length (kvs : LessonDict) :
    kvs.length ≤
      (joinEntries ",\n      ".toList (kvs.map lessonEntry)).length := by
  induction kvs with
  | nil => simp [joinEntries]
  | cons kv tl ih =>
      cases tl with
      | nil =>
          simp [joinEntries, lessonEntry, jsonStr]
      | cons kv2 tl2 =>
          simp only [List.map_cons, joinEntries, List.length_cons,
            List.length_append] at ih ⊢
          simp [lessonEntry, jsonStr] at ih ⊢
          omega

theorem lessonObj_length (lesson : LessonDict) :
    lesson.length ≤ (lessonObj lesson).length := by
  cases lesson with
  | nil => simp [lessonObj]
  | cons kv tl =>
      have h := joinEntries_lessonEntry_length (kv :: tl)
      simp only [lessonObj]
      simp only [List.length_append]
      simp at h ⊢
      omega

/-- C8: parsing the JSON renderer's output yields an object with the given
date, a `lessons` array containing exactly the original lesson with every
field preserved in insertion order (strings, Unicode included, round-trip
unescaped; stable key order is witnessed by the parsed field list equalling
the dict's insertion order), and the `generated_at` value is exactly the
ISO-8601 timestamp string taken at render time; the second conjunct exhibits
the two-space indentation of the serialized layout. -/
theorem C8_json_round_trip (lesson : LessonDict) (date_str now : List Char) :
    parseJson (JsonRenderer.render lesson date_str now) =
      some (.obj [("date".toList, .str date_str),
        ("lessons".toList, .arr [.obj (jsonEntries lesson)]),
        ("generated_at".toList, .str now)]) ∧
    ∃ t, JsonRenderer.render lesson date_str now =
      "\x7b\n  \"date\": ".toList ++ t := by
  constructor
  · have hobj := lessonObj_length lesson
    have hlen : lesson.length + 8 ≤
        (JsonRenderer.render lesson date_str now).length + 1 := by
      simp [JsonRenderer.render, jsonStr]
      omega
    unfold parseJson
    rw [parseValue_render lesson date_str now _ hlen]
    simp [skipWs]
  · exact ⟨jsonStr date_str ++
      ",\n  \"lessons\": [\n    ".toList ++ lessonObj lesson ++
      "\n  ],\n  \"generated_at\": ".toList ++ jsonStr now ++
      "\n\x7d".toList,
      by simp [JsonRenderer.render, List.append_assoc]⟩


end DailyLesson
